import Mathlib

/-!
# FastThink working-memory engine: a shallow embedding

This file embeds the FastThink engine (`toolkit/fast_think/{models,limits,session,manager}.rs`)
in Lean 4 and proves properties of it.

Modelling conventions:
* `std::time::Instant` / `Duration` become `Nat` (an abstract monotone clock in
  milliseconds); operations that consult the clock take an explicit `now : Nat`
  argument, and `elapsed = now - startedAt` (truncated `Nat` subtraction).
* `f32` certainty / score values become `Rat`; all operations performed on them
  in the source (constant `0.5`, assignment, `clamp(0.0, 1.0)`, comparison) are
  exact in `Rat`.
* `petgraph::stable_graph::StableDiGraph` becomes a pair of lists.  The engine
  never removes nodes or edges, so `NodeIndex` values are dense positions in
  insertion order, and `node_weight i = nodes.get? i`.  `add_edge` panics in
  petgraph when an endpoint does not exist; panicking is modelled by the
  `Outcome.panicked` constructor.  petgraph iterates the incoming edges of a
  node newest-first, which `getParents` reproduces by reversing the edge list.
* `uuid::Uuid::new_v4` becomes a per-session fresh counter `nextId` (ids are
  opaque in the source; only freshness and equality matter).
* Rust `HashMap<String, _>` intern tables become association lists with
  insert-or-replace semantics (the source only uses `get`/`get_mut`/`insert`/
  `len`, all order-insensitive); the manager's session map becomes a function
  `String → Option ThinkingSession`.
-/

/-- `models.rs`: `ThoughtType`. -/
inductive ThoughtType where
  | Initial
  | Reasoning
  | Recall
  | Hypothesis
  | Conclusion
  | Question
  | Observation
deriving DecidableEq, Repr

/-- `models.rs`: `ThoughtEdge`. -/
inductive ThoughtEdge where
  | LeadsTo
  | Recalled
  | Supports
  | Contradicts
  | Implies
  | Because
  | Refines
  | Questions
deriving DecidableEq, Repr

/-- `models.rs`: `ScratchEntityType`. -/
inductive ScratchEntityType where
  | Person
  | Organization
  | Location
  | Concept
  | Object
  | Action
  | Event
  | Technology
  | Other
deriving DecidableEq, Repr

/-- `models.rs`: `SessionStatus`. -/
inductive SessionStatus where
  | Thinking
  | NeedsRecall
  | Decided
  | TimedOut
  | Overflow
  | Committed
  | Discarded
deriving DecidableEq, Repr

/-- `models.rs`: `FastThinkError`. -/
inductive FastThinkError where
  | SessionNotFound
  | SessionAlreadyExists
  | Timeout
  | TooManyThoughts
  | TooManyEntities
  | TooManyConcepts
  | TooDeep
  | NoConclusion
  | InvalidState (detail : String)
  | RecallFailed (detail : String)
  | CommitFailed (detail : String)
  | ThoughtNotFound
  | EntityNotFound
deriving DecidableEq, Repr

/-- `models.rs`: `Thought`.  `timestamp` is the `now` at creation. -/
structure Thought where
  id : Nat
  content : String
  thoughtType : ThoughtType
  certainty : Rat
  timestamp : Nat
  depth : Nat
  sourceMemoryId : Option String
deriving DecidableEq, Repr

/-- `models.rs`: `Thought::new` — certainty defaults to `0.5`, no source memory.
The fresh uuid is supplied by the caller's counter as `id`. -/
def Thought.new (id : Nat) (content : String) (thoughtType : ThoughtType)
    (depth : Nat) (now : Nat) : Thought :=
  { id := id
    content := content
    thoughtType := thoughtType
    certainty := mkRat 1 2
    timestamp := now
    depth := depth
    sourceMemoryId := none }

/-- `models.rs`: `Thought::with_certainty` — `certainty.clamp(0.0, 1.0)`. -/
def Thought.withCertainty (t : Thought) (certainty : Rat) : Thought :=
  { t with certainty := if certainty < 0 then 0 else if 1 < certainty then 1 else certainty }

/-- `models.rs`: `Thought::is_conclusion`. -/
def Thought.isConclusion (t : Thought) : Bool :=
  t.thoughtType == ThoughtType.Conclusion

/-- `models.rs`: `Thought::is_recall`. -/
def Thought.isRecall (t : Thought) : Bool :=
  t.thoughtType == ThoughtType.Recall

/-- `models.rs`: `ScratchEntity` (id is a fresh counter value, see header). -/
structure ScratchEntity where
  id : Nat
  name : String
  entityType : ScratchEntityType
  mentions : List Nat
  attributes : List (String × String)
deriving DecidableEq, Repr

/-- `models.rs`: `ScratchEntity::new`. -/
def ScratchEntity.new (id : Nat) (name : String) (entityType : ScratchEntityType) :
    ScratchEntity :=
  { id := id, name := name, entityType := entityType, mentions := [], attributes := [] }

/-- `models.rs`: `ScratchEntity::add_mention` — push only if not already present. -/
def ScratchEntity.addMention (e : ScratchEntity) (thoughtIdx : Nat) : ScratchEntity :=
  if e.mentions.contains thoughtIdx then e else { e with mentions := e.mentions ++ [thoughtIdx] }

/-- `models.rs`: `ScratchConcept`. -/
structure ScratchConcept where
  id : Nat
  name : String
  parent : Option String
  relatedThoughts : List Nat
deriving DecidableEq, Repr

/-- `models.rs`: `ScratchConcept::new`. -/
def ScratchConcept.new (id : Nat) (name : String) (parent : Option String) : ScratchConcept :=
  { id := id, name := name, parent := parent, relatedThoughts := [] }

/-- `models.rs`: `ScratchConcept::link_thought` — push only if not already present. -/
def ScratchConcept.linkThought (c : ScratchConcept) (thoughtIdx : Nat) : ScratchConcept :=
  if c.relatedThoughts.contains thoughtIdx then c
  else { c with relatedThoughts := c.relatedThoughts ++ [thoughtIdx] }

/-- `limits.rs`: `FastThinkLimits`; durations in milliseconds. -/
structure FastThinkLimits where
  maxThoughts : Nat
  maxEntities : Nat
  maxConcepts : Nat
  maxDepth : Nat
  thinkingTimeout : Nat
  sessionTtl : Nat
  maxRecallResults : Nat
deriving DecidableEq, Repr

/-- `limits.rs`: `FastThinkLimits::default`. -/
def FastThinkLimits.default : FastThinkLimits :=
  { maxThoughts := 100
    maxEntities := 50
    maxConcepts := 30
    maxDepth := 10
    thinkingTimeout := 30000
    sessionTtl := 300000
    maxRecallResults := 5 }

/-- A directed edge record of the session graph (`petgraph` edge with weight). -/
structure EdgeRec where
  source : Nat
  target : Nat
  weight : ThoughtEdge
deriving DecidableEq, Repr

/-- The session's `StableDiGraph<Thought, ThoughtEdge>`: nodes in insertion
order (indices are positions; the engine never deletes), edges in insertion
order. -/
structure ThoughtGraph where
  nodes : List Thought
  edges : List EdgeRec
deriving DecidableEq, Repr

/-- petgraph `add_edge`: panics (`none`) when an endpoint node does not exist. -/
def ThoughtGraph.addEdge (g : ThoughtGraph) (src dst : Nat) (weight : ThoughtEdge) :
    Option ThoughtGraph :=
  if src < g.nodes.length ∧ dst < g.nodes.length then
    some { g with edges := g.edges ++ [⟨src, dst, weight⟩] }
  else
    none

/-- In-place update of the node at position `i` (`node_weight_mut`); no-op when
the index is out of range (the `if let Some(..)` pattern in the source). -/
def updateAt (l : List Thought) (i : Nat) (f : Thought → Thought) : List Thought :=
  match l, i with
  | [], _ => []
  | a :: t, 0 => f a :: t
  | a :: t, i + 1 => a :: updateAt t i f

/-- Lookup in an association list (Rust `HashMap::get`). -/
def listLookup {α : Type} (l : List (String × α)) (k : String) : Option α :=
  (l.find? (fun p => p.1 == k)).map (fun p => p.2)

/-- Update the value stored under `k` (Rust `HashMap::get_mut` + in-place
mutation); keys other than `k` are untouched. -/
def listUpdate {α : Type} (l : List (String × α)) (k : String) (f : α → α) :
    List (String × α) :=
  l.map (fun p => if p.1 == k then (p.1, f p.2) else p)

/-- `HashMap::entry(k).or_default().push(v)` on the reverse indexes. -/
def pushIndex (l : List (Nat × List String)) (k : Nat) (v : String) :
    List (Nat × List String) :=
  if (l.find? (fun p => p.1 == k)).isSome then
    l.map (fun p => if p.1 == k then (p.1, p.2 ++ [v]) else p)
  else
    l ++ [(k, [v])]

/-- Rust `str::to_lowercase`, embedded as a character-wise lowercase map
(identical on the ASCII names the engine interns; written over the character
list so that it evaluates in proofs). -/
def strToLower (s : String) : String := String.mk (s.data.map Char.toLower)

/-- `session.rs`: `ThinkingSession`.  `nextId` is the fresh-uuid counter (see
header); timestamps are abstract clock values. -/
structure ThinkingSession where
  id : String
  graph : ThoughtGraph
  entities : List (String × ScratchEntity)
  concepts : List (String × ScratchConcept)
  thoughtToConcepts : List (Nat × List String)
  thoughtToEntities : List (Nat × List String)
  startedAt : Nat
  lastActivity : Nat
  currentDepth : Nat
  status : SessionStatus
  rootThought : Option Nat
  nextId : Nat
deriving DecidableEq, Repr

/-- `session.rs`: `ThinkingSession::new` at clock value `now`. -/
def ThinkingSession.new (sessionId : String) (now : Nat) : ThinkingSession :=
  { id := sessionId
    graph := { nodes := [], edges := [] }
    entities := []
    concepts := []
    thoughtToConcepts := []
    thoughtToEntities := []
    startedAt := now
    lastActivity := now
    currentDepth := 0
    status := SessionStatus.Thinking
    rootThought := none
    nextId := 0 }

/-- Result of a session operation: mirrors Rust `Result<α, FastThinkError>`
on a `&mut self` receiver — both arms carry the (possibly mutated) session —
plus `panicked` for the reachable petgraph `add_edge` panic. -/
inductive Outcome (α : Type) where
  | ok : α → ThinkingSession → Outcome α
  | err : FastThinkError → ThinkingSession → Outcome α
  | panicked : Outcome α
deriving DecidableEq, Repr

/-- Whether a session operation returned `Err(..)`. -/
def Outcome.isErr {α : Type} : Outcome α → Bool
  | .ok _ _ => false
  | .err _ _ => true
  | .panicked => false

/-- The session carried by an `ok`/`err` outcome (`fallback` for a panic). -/
def Outcome.session {α : Type} (o : Outcome α) (fallback : ThinkingSession) :
    ThinkingSession :=
  match o with
  | .ok _ s => s
  | .err _ s => s
  | .panicked => fallback

/-- `session.rs` lines 59–62: the computed depth of a new thought —
`parent.and_then(node_weight).map(|t| t.depth + 1).unwrap_or(0)`.  A missing
or dangling parent silently yields depth 0. -/
def ThinkingSession.computedDepth (s : ThinkingSession) (parent : Option Nat) : Nat :=
  match parent.bind (fun p => s.graph.nodes.get? p) with
  | some t => t.depth + 1
  | none => 0

/-- `session.rs`: `ThinkingSession::add_thought`.  Checks in source order:
timeout (sets `TimedOut`), thought budget (sets `Overflow`), depth; then
inserts the node, the parent edge (petgraph panic when the parent index is
dangling), records the root, bumps `last_activity` and `current_depth`. -/
def ThinkingSession.addThought (s : ThinkingSession) (content : String)
    (thoughtType : ThoughtType) (parent : Option Nat) (edgeType : Option ThoughtEdge)
    (limits : FastThinkLimits) (now : Nat) : Outcome Nat :=
  if limits.thinkingTimeout < now - s.startedAt then
    .err .Timeout { s with status := SessionStatus.TimedOut }
  else if limits.maxThoughts ≤ s.graph.nodes.length then
    .err .TooManyThoughts { s with status := SessionStatus.Overflow }
  else
    let depth := s.computedDepth parent
    if limits.maxDepth < depth then
      .err .TooDeep s
    else
      let thought := Thought.new s.nextId content thoughtType depth now
      let node := s.graph.nodes.length
      let g1 : ThoughtGraph := { s.graph with nodes := s.graph.nodes ++ [thought] }
      let g2? := match parent with
        | some parentIdx => g1.addEdge parentIdx node (edgeType.getD ThoughtEdge.LeadsTo)
        | none => some g1
      match g2? with
      | none => .panicked
      | some g2 =>
          .ok node
            { s with
              graph := g2
              rootThought := if s.rootThought.isNone then some node else s.rootThought
              lastActivity := now
              currentDepth := max s.currentDepth depth
              nextId := s.nextId + 1 }

/-- `session.rs`: `ThinkingSession::add_recalled_thought` — `add_thought` with
kind `Recall` and edge `Recalled`, then set `source_memory_id` and `certainty`
on the new node (the store score is assigned unclamped). -/
def ThinkingSession.addRecalledThought (s : ThinkingSession) (content : String)
    (sourceMemoryId : String) (certainty : Rat) (parent : Nat)
    (limits : FastThinkLimits) (now : Nat) : Outcome Nat :=
  match s.addThought content .Recall (some parent) (some .Recalled) limits now with
  | .ok node s' =>
      .ok node
        { s' with
          graph := { s'.graph with
            nodes := updateAt s'.graph.nodes node
              (fun t => { t with sourceMemoryId := some sourceMemoryId
                                 certainty := certainty }) } }
  | .err e s' => .err e s'
  | .panicked => .panicked

/-- `session.rs` lines 126–128: the `supports → conclusion` edges added for the
tail of the supporting list; petgraph panics on a dangling index. -/
def addSupportEdges (g : ThoughtGraph) (supports : List Nat) (node : Nat) :
    Option ThoughtGraph :=
  match supports with
  | [] => some g
  | i :: rest =>
      match g.addEdge i node .Supports with
      | none => none
      | some g' => addSupportEdges g' rest node

/-- `session.rs`: `ThinkingSession::add_conclusion`. -/
def ThinkingSession.addConclusion (s : ThinkingSession) (content : String)
    (supportingThoughts : List Nat) (limits : FastThinkLimits) (now : Nat) :
    Outcome Nat :=
  let parent := supportingThoughts.head?
  match s.addThought content .Conclusion parent (some .LeadsTo) limits now with
  | .ok node s' =>
      match addSupportEdges s'.graph (supportingThoughts.drop 1) node with
      | none => .panicked
      | some g' => .ok node { s' with graph := g', status := SessionStatus.Decided }
  | .err e s' => .err e s'
  | .panicked => .panicked

/-- `session.rs`: `ThinkingSession::link_thoughts` — fails `ThoughtNotFound`
when either endpoint is absent; performs no status or timeout check. -/
def ThinkingSession.linkThoughts (s : ThinkingSession) (src dst : Nat)
    (edgeType : ThoughtEdge) : Outcome Nat :=
  if (s.graph.nodes.get? src).isNone then
    .err .ThoughtNotFound s
  else if (s.graph.nodes.get? dst).isNone then
    .err .ThoughtNotFound s
  else
    match s.graph.addEdge src dst edgeType with
    | some g' => .ok s.graph.edges.length { s with graph := g' }
    | none => .panicked

/-- `session.rs`: `ThinkingSession::extract_entity` — case-insensitive intern;
performs no status or timeout check. -/
def ThinkingSession.extractEntity (s : ThinkingSession) (thoughtIdx : Nat)
    (name : String) (entityType : ScratchEntityType) (limits : FastThinkLimits) :
    Outcome Nat :=
  if (s.graph.nodes.get? thoughtIdx).isNone then
    .err .ThoughtNotFound s
  else
    let normalizedName := strToLower name
    match listLookup s.entities normalizedName with
    | some entity =>
        .ok entity.id
          { s with
            entities := listUpdate s.entities normalizedName (fun e => e.addMention thoughtIdx)
            thoughtToEntities := pushIndex s.thoughtToEntities thoughtIdx normalizedName }
    | none =>
        if limits.maxEntities ≤ s.entities.length then
          .err .TooManyEntities s
        else
          let entity := (ScratchEntity.new s.nextId name entityType).addMention thoughtIdx
          .ok entity.id
            { s with
              entities := s.entities ++ [(normalizedName, entity)]
              thoughtToEntities := pushIndex s.thoughtToEntities thoughtIdx normalizedName
              nextId := s.nextId + 1 }

/-- `session.rs`: `ThinkingSession::map_to_concept` — same interning discipline
as `extract_entity`; performs no status or timeout check. -/
def ThinkingSession.mapToConcept (s : ThinkingSession) (thoughtIdx : Nat)
    (conceptName : String) (parentConcept : Option String)
    (limits : FastThinkLimits) : Outcome Nat :=
  if (s.graph.nodes.get? thoughtIdx).isNone then
    .err .ThoughtNotFound s
  else
    let normalizedName := strToLower conceptName
    match listLookup s.concepts normalizedName with
    | some concept =>
        .ok concept.id
          { s with
            concepts := listUpdate s.concepts normalizedName (fun c => c.linkThought thoughtIdx)
            thoughtToConcepts := pushIndex s.thoughtToConcepts thoughtIdx normalizedName }
    | none =>
        if limits.maxConcepts ≤ s.concepts.length then
          .err .TooManyConcepts s
        else
          let concept := (ScratchConcept.new s.nextId conceptName parentConcept).linkThought thoughtIdx
          .ok concept.id
            { s with
              concepts := s.concepts ++ [(normalizedName, concept)]
              thoughtToConcepts := pushIndex s.thoughtToConcepts thoughtIdx normalizedName
              nextId := s.nextId + 1 }

/-- `session.rs`: `ThinkingSession::get_conclusions` — node-index order. -/
def ThinkingSession.getConclusions (s : ThinkingSession) : List (Nat × Thought) :=
  s.graph.nodes.enum.filter (fun p => p.2.isConclusion)

/-- `session.rs`: `ThinkingSession::get_parents` — incoming edges with their
sources; petgraph yields incoming edges newest-first. -/
def ThinkingSession.getParents (s : ThinkingSession) (idx : Nat) :
    List (Nat × ThoughtEdge) :=
  (s.graph.edges.reverse.filter (fun e => e.target == idx)).map
    (fun e => (e.source, e.weight))

/-- The loop body of `get_chain_to_root`: follow the first incoming edge,
breaking when the node has no parent or the parent was already visited.  The
source loop terminates because each iteration appends a node not yet in the
chain and every appended node is the source of some edge, so it runs at most
`edges.length` iterations; the fuel passed by `getChainToRoot` therefore never
runs out. -/
def chainAux (s : ThinkingSession) (fuel : Nat) (chain : List Nat) (current : Nat) :
    List Nat :=
  match fuel with
  | 0 => chain
  | fuel + 1 =>
      match (s.getParents current).head? with
      | none => chain
      | some (parent, _) =>
          if chain.contains parent then chain
          else chainAux s fuel (chain ++ [parent]) parent

/-- `session.rs`: `ThinkingSession::get_chain_to_root`. -/
def ThinkingSession.getChainToRoot (s : ThinkingSession) (idx : Nat) : List Nat :=
  (chainAux s (s.graph.edges.length + 1) [idx] idx).reverse

/-- `session.rs`: `ThinkingSession::thought_count`. -/
def ThinkingSession.thoughtCount (s : ThinkingSession) : Nat :=
  s.graph.nodes.length

/-- `session.rs`: `ThinkingSession::entity_count`. -/
def ThinkingSession.entityCount (s : ThinkingSession) : Nat :=
  s.entities.length

/-- `session.rs`: `ThinkingSession::concept_count`. -/
def ThinkingSession.conceptCount (s : ThinkingSession) : Nat :=
  s.concepts.length

/-- `session.rs`: `ThinkingSession::build_conclusion_content` — conclusions'
contents joined by newline, empty when there are none. -/
def ThinkingSession.buildConclusionContent (s : ThinkingSession) : String :=
  let conclusions := s.getConclusions
  if conclusions.isEmpty then ""
  else String.intercalate "\n" (conclusions.map (fun p => p.2.content))

/-- `session.rs`: `ThinkingSession::get_supporting_evidence` — for every Recall
thought, `"[{source_memory_id ?? "unknown"}] {content}"` in node-index order. -/
def ThinkingSession.getSupportingEvidence (s : ThinkingSession) : List String :=
  (s.graph.nodes.filter (fun t => t.isRecall)).map
    (fun t => "[" ++ t.sourceMemoryId.getD "unknown" ++ "] " ++ t.content)

/-- `manager.rs` / `core`: one record returned by the store's `search`. -/
structure MemoryRecord where
  id : String
  content : String
  score : Rat
deriving DecidableEq, Repr

/-- `core`: the store's reply to `add` / `add_with_tags`. -/
structure StoreAddResult where
  memoryIds : List String
deriving DecidableEq, Repr

/-- `manager.rs`: `CommitResult` (duration as `Nat`). -/
structure CommitResult where
  memoryId : String
  thoughtsProcessed : Nat
  entitiesExtracted : Nat
  conceptsMapped : Nat
  elapsed : Nat
deriving DecidableEq, Repr

/-- `manager.rs`: `DiscardResult`. -/
structure DiscardResult where
  thoughtsDiscarded : Nat
  elapsed : Nat
deriving DecidableEq, Repr

/-- `manager.rs`: `SessionInfo`. -/
structure SessionInfo where
  id : String
  status : SessionStatus
  thoughtCount : Nat
  entityCount : Nat
  conceptCount : Nat
  currentDepth : Nat
  elapsed : Nat
  hasConclusion : Bool
deriving DecidableEq, Repr

/-- `manager.rs`: `FastThinkManager` — the session map behind the `RwLock`,
modelled as a function (Rust `HashMap` keys are unique). -/
structure FastThinkManager where
  sessions : String → Option ThinkingSession
  limits : FastThinkLimits

/-- `HashMap::insert` on the session map. -/
def FastThinkManager.insertSession (m : FastThinkManager) (sessionId : String)
    (s : ThinkingSession) : FastThinkManager :=
  { m with sessions := fun k => if k = sessionId then some s else m.sessions k }

/-- `HashMap::remove` on the session map (the removed value is read separately). -/
def FastThinkManager.removeSession (m : FastThinkManager) (sessionId : String) :
    FastThinkManager :=
  { m with sessions := fun k => if k = sessionId then none else m.sessions k }

/-- Result of a manager operation, carrying the updated manager. -/
inductive MOutcome (α : Type) where
  | ok : α → FastThinkManager → MOutcome α
  | err : FastThinkError → FastThinkManager → MOutcome α
  | panicked : MOutcome α

/-- Whether a manager operation returned `Ok(..)`. -/
def MOutcome.isOk {α : Type} : MOutcome α → Bool
  | .ok _ _ => true
  | .err _ _ => false
  | .panicked => false

/-- The value returned by a successful manager operation. -/
def MOutcome.value? {α : Type} : MOutcome α → Option α
  | .ok a _ => some a
  | .err _ _ => none
  | .panicked => none

/-- The error returned by a failed manager operation. -/
def MOutcome.error? {α : Type} : MOutcome α → Option FastThinkError
  | .ok _ _ => none
  | .err e _ => some e
  | .panicked => none

/-- The session stored under `sid` in the manager a manager operation returns. -/
def MOutcome.sessionAfter {α : Type} (o : MOutcome α) (sid : String) :
    Option ThinkingSession :=
  match o with
  | .ok _ m => m.sessions sid
  | .err _ m => m.sessions sid
  | .panicked => none

/-- The manager a manager operation returns (`fallback` for a panic). -/
def MOutcome.managerAfter {α : Type} (o : MOutcome α) (fallback : FastThinkManager) :
    FastThinkManager :=
  match o with
  | .ok _ m => m
  | .err _ m => m
  | .panicked => fallback

/-- `manager.rs`: `FastThinkManager::start_thinking`. -/
def FastThinkManager.startThinking (m : FastThinkManager) (sessionId initialThought : String)
    (now : Nat) : MOutcome Nat :=
  if (m.sessions sessionId).isSome then
    .err .SessionAlreadyExists m
  else
    match (ThinkingSession.new sessionId now).addThought initialThought .Initial
        none none m.limits now with
    | .ok node s => .ok node (m.insertSession sessionId s)
    | .err e _ => .err e m
    | .panicked => .panicked

/-- `manager.rs`: `FastThinkManager::add_thought` — the mutated session (also
on error: the status change sticks) is written back under the lock. -/
def FastThinkManager.addThought (m : FastThinkManager) (sessionId content : String)
    (thoughtType : ThoughtType) (parent : Option Nat) (edgeType : Option ThoughtEdge)
    (now : Nat) : MOutcome Nat :=
  match m.sessions sessionId with
  | none => .err .SessionNotFound m
  | some session =>
      match session.addThought content thoughtType parent edgeType m.limits now with
      | .ok node s' => .ok node (m.insertSession sessionId s')
      | .err e s' => .err e (m.insertSession sessionId s')
      | .panicked => .panicked

/-- `manager.rs`: `FastThinkManager::extract_entity`. -/
def FastThinkManager.extractEntity (m : FastThinkManager) (sessionId : String)
    (thoughtIdx : Nat) (name : String) (entityType : ScratchEntityType) : MOutcome Nat :=
  match m.sessions sessionId with
  | none => .err .SessionNotFound m
  | some session =>
      match session.extractEntity thoughtIdx name entityType m.limits with
      | .ok eid s' => .ok eid (m.insertSession sessionId s')
      | .err e s' => .err e (m.insertSession sessionId s')
      | .panicked => .panicked

/-- `manager.rs`: `FastThinkManager::link_thoughts`. -/
def FastThinkManager.linkThoughts (m : FastThinkManager) (sessionId : String)
    (src dst : Nat) (edgeType : ThoughtEdge) : MOutcome Unit :=
  match m.sessions sessionId with
  | none => .err .SessionNotFound m
  | some session =>
      match session.linkThoughts src dst edgeType with
      | .ok _ s' => .ok () (m.insertSession sessionId s')
      | .err e s' => .err e (m.insertSession sessionId s')
      | .panicked => .panicked

/-- `manager.rs` lines 118–137: the recall insertion loop — break (without
error) once the thought budget is reached; `?`-propagate any insertion error
(the thoughts inserted so far remain in the session). -/
def recallLoop (s : ThinkingSession) (memories : List MemoryRecord)
    (parentThought : Nat) (limits : FastThinkLimits) (now : Nat) (acc : List Nat) :
    Outcome (List Nat) :=
  match memories with
  | [] => .ok acc s
  | memory :: rest =>
      if limits.maxThoughts ≤ s.graph.nodes.length then
        .ok acc s
      else
        match s.addRecalledThought memory.content memory.id memory.score
            parentThought limits now with
        | .ok node s' => recallLoop s' rest parentThought limits now (acc ++ [node])
        | .err e s' => .err e s'
        | .panicked => .panicked

/-- `manager.rs`: `FastThinkManager::recall`.  The store's reply to
`search(query, "contextual", max_recall_results, ..)` is passed in as
`searchResult` (the store is an external collaborator).  Phase 1 sets
`NeedsRecall`; phase 3 re-looks the session up, runs the insertion loop and
restores `Thinking`. -/
def FastThinkManager.recall (m : FastThinkManager) (sessionId query : String)
    (parentThought : Nat) (searchResult : Except String (List MemoryRecord))
    (now : Nat) : MOutcome (List Nat) :=
  match m.sessions sessionId with
  | none => .err .SessionNotFound m
  | some session =>
      let m1 := m.insertSession sessionId { session with status := SessionStatus.NeedsRecall }
      match searchResult with
      | .error e => .err (.RecallFailed e) m1
      | .ok memories =>
          match m1.sessions sessionId with
          | none => .err .SessionNotFound m1
          | some session2 =>
              match recallLoop session2 memories parentThought m.limits now [] with
              | .ok recalledNodes s' =>
                  .ok recalledNodes
                    (m1.insertSession sessionId { s' with status := SessionStatus.Thinking })
              | .err e s' => .err e (m1.insertSession sessionId s')
              | .panicked => .panicked

/-- `manager.rs` lines 164–185 of `commit`: remove the session from the map
(before any further check), fail `NoConclusion` on a session without
conclusions, otherwise assemble the full content that will be written to the
store. -/
def FastThinkManager.commitPrepare (m : FastThinkManager) (sessionId : String) :
    Except FastThinkError (String × ThinkingSession) × FastThinkManager :=
  match m.sessions sessionId with
  | none => (.error .SessionNotFound, m)
  | some session =>
      let m' := m.removeSession sessionId
      if session.getConclusions.isEmpty then
        (.error .NoConclusion, m')
      else
        let conclusionContent := session.buildConclusionContent
        let supportingEvidence := session.getSupportingEvidence
        let fullContent :=
          if supportingEvidence.isEmpty then conclusionContent
          else conclusionContent ++ "\n\n[Based on: " ++
            String.intercalate "; " supportingEvidence ++ "]"
        (.ok (fullContent, session), m')

/-- `manager.rs`: `FastThinkManager::commit`.  `storeAdd content userId` is the
external store's reply to `add(&full_content, user_id, None, None)`. -/
def FastThinkManager.commit (m : FastThinkManager) (sessionId userId : String)
    (storeAdd : String → String → Except String StoreAddResult) (now : Nat) :
    Except FastThinkError CommitResult × FastThinkManager :=
  match m.commitPrepare sessionId with
  | (.error e, m') => (.error e, m')
  | (.ok (fullContent, session), m') =>
      match storeAdd fullContent userId with
      | .error e => (.error (.CommitFailed e), m')
      | .ok result =>
          (.ok
            { memoryId := (result.memoryIds.head?).getD ""
              thoughtsProcessed := session.thoughtCount
              entitiesExtracted := session.entityCount
              conceptsMapped := session.conceptCount
              elapsed := now - session.startedAt }, m')

/-- `manager.rs`: `FastThinkManager::discard`. -/
def FastThinkManager.discard (m : FastThinkManager) (sessionId : String) (now : Nat) :
    Except FastThinkError DiscardResult × FastThinkManager :=
  match m.sessions sessionId with
  | none => (.error .SessionNotFound, m)
  | some session =>
      (.ok
        { thoughtsDiscarded := session.thoughtCount
          elapsed := now - session.startedAt }, m.removeSession sessionId)

/-- `manager.rs`: `FastThinkManager::get_session_status`. -/
def FastThinkManager.getSessionStatus (m : FastThinkManager) (sessionId : String)
    (now : Nat) : Except FastThinkError SessionInfo :=
  match m.sessions sessionId with
  | none => .error .SessionNotFound
  | some s =>
      .ok
        { id := s.id
          status := s.status
          thoughtCount := s.thoughtCount
          entityCount := s.entityCount
          conceptCount := s.conceptCount
          currentDepth := s.currentDepth
          elapsed := now - s.startedAt
          hasConclusion := !s.getConclusions.isEmpty }

/-- The thought a recall insertion creates, fully evaluated: kind `Recall`,
content and certainty from the store record, source id set, depth one below
the parent. -/
def mkRecallThought (id : Nat) (r : MemoryRecord) (depth now : Nat) : Thought :=
  { id := id
    content := r.content
    thoughtType := ThoughtType.Recall
    certainty := r.score
    timestamp := now
    depth := depth
    sourceMemoryId := some r.id }

/-- The block of thoughts a run of recall insertions appends, with fresh ids
counting up from `startId`. -/
def recalledNodes (startId : Nat) (rs : List MemoryRecord) (depth now : Nat) :
    List Thought :=
  match rs with
  | [] => []
  | r :: rest => mkRecallThought startId r depth now :: recalledNodes (startId + 1) rest depth now

/-- The committed content as the specification words it: all Conclusion
thoughts' contents joined by newline and, exactly when at least one Recall
thought exists, the suffix
`"\n\n[Based on: " ++ "[{source_memory_id ?? 'unknown'}] {content}" strings joined by "; " ++ "]"`;
with no Recall thoughts, exactly the joined conclusions.  Stated independently
of `commitPrepare` to compare the code against the spec. -/
def specCommitContent (s : ThinkingSession) : String :=
  let joined := String.intercalate "\n"
    ((s.graph.nodes.filter (fun t => t.isConclusion)).map (fun t => t.content))
  let recalls := s.graph.nodes.filter (fun t => t.isRecall)
  if recalls.isEmpty then joined
  else
    joined ++ "\n\n[Based on: " ++
      String.intercalate "; "
        (recalls.map (fun t => "[" ++ t.sourceMemoryId.getD "unknown" ++ "] " ++ t.content)) ++
      "]"

/-- Concrete scenario: a fresh session `"s"` started at clock 0 holding the
single initial thought (node 0). -/
def sessStarted : ThinkingSession :=
  ((ThinkingSession.new "s" 0).addThought "start" .Initial none none
    FastThinkLimits.default 0).session (ThinkingSession.new "s" 0)

/-- Concrete scenario: `sessStarted` after adding a second thought with no
parent (node 1, a second root-less node). -/
def sessTwo : ThinkingSession :=
  (sessStarted.addThought "floating" .Observation none none
    FastThinkLimits.default 1).session sessStarted

/-- Concrete scenario steps for the commit-content example (spec S2). -/
def sessS2a : ThinkingSession :=
  ((ThinkingSession.new "s2" 0).addThought "Should we cache?" .Initial none none
    FastThinkLimits.default 0).session (ThinkingSession.new "s2" 0)

/-- S2 after recalling memory `m7`. -/
def sessS2b : ThinkingSession :=
  (sessS2a.addRecalledThought "LRU works for bursty" "m7" (mkRat 9 10) 0
    FastThinkLimits.default 1).session sessS2a

/-- S2 after recalling memory `m8`. -/
def sessS2c : ThinkingSession :=
  (sessS2b.addRecalledThought "LFU for skew" "m8" (mkRat 7 10) 0
    FastThinkLimits.default 2).session sessS2b

/-- S2 after concluding `"Use LRU"` supported by the first recall. -/
def sessS2 : ThinkingSession :=
  (sessS2c.addConclusion "Use LRU" [1] FastThinkLimits.default 3).session sessS2c

/-- A manager with no sessions and default limits. -/
def mgrEmpty : FastThinkManager :=
  { sessions := fun _ => none, limits := FastThinkLimits.default }

/-- A manager holding only the started session `"s"`. -/
def mgrStarted : FastThinkManager :=
  (mgrEmpty.startThinking "s" "start" 0).managerAfter mgrEmpty

/-- The manager after an `add_thought` on `"s"` past the thinking timeout:
the call fails `Timeout` and leaves the session in the map as `TimedOut`. -/
def mgrTimedOut : FastThinkManager :=
  (mgrStarted.addThought "s" "late" .Reasoning (some 0) none 30001).managerAfter mgrStarted

/-- A manager holding the concluded S2 session under `"s2"`. -/
def mgrS2 : FastThinkManager :=
  { sessions := fun k => if k = "s2" then some sessS2 else none
    limits := FastThinkLimits.default }

/-- Default limits tightened to a single thought. -/
def limitsOneThought : FastThinkLimits :=
  { FastThinkLimits.default with maxThoughts := 1 }

/-- Default limits tightened to depth 0. -/
def limitsShallow : FastThinkLimits :=
  { FastThinkLimits.default with maxDepth := 0 }

/-- A store that answers every `add` with one memory id. -/
def storeOk : String → String → Except String StoreAddResult :=
  fun _ _ => .ok { memoryIds := ["mem-1"] }

theorem updateAt_append_length (l : List Thought) (a : Thought) (f : Thought → Thought) :
    updateAt (l ++ [a]) l.length f = l ++ [f a] := by
  induction l with
  | nil => rfl
  | cons x xs ih => simpa [updateAt] using ih

theorem get?_of_lt_length {l : List Thought} {p : Nat} {pt : Thought}
    (hp : l.get? p = some pt) : p < l.length := by
  by_contra hge
  rw [List.get?_eq_none.mpr (Nat.le_of_not_lt hge)] at hp
  exact absurd hp (by simp)

theorem enumFrom_filter_map_snd {β : Type} (q : Thought → Bool) (f : Thought → β) :
    ∀ (n : Nat) (l : List Thought),
      ((List.enumFrom n l).filter (fun p => q p.2)).map (fun p => f p.2) =
        (l.filter q).map f := by
  intro n l
  induction l generalizing n with
  | nil => rfl
  | cons a t ih =>
    simp only [List.enumFrom, List.filter]
    cases hq : q a <;> simp [hq, ih]

theorem getConclusions_snd (s : ThinkingSession) :
    s.getConclusions.map (fun p => p.2) =
      s.graph.nodes.filter (fun t => t.isConclusion) := by
  simpa [ThinkingSession.getConclusions, List.enum] using
    enumFrom_filter_map_snd (fun t => t.isConclusion) (fun t => t) 0 s.graph.nodes

theorem getConclusions_content (s : ThinkingSession) :
    s.getConclusions.map (fun p => p.2.content) =
      (s.graph.nodes.filter (fun t => t.isConclusion)).map (fun t => t.content) := by
  simpa [ThinkingSession.getConclusions, List.enum] using
    enumFrom_filter_map_snd (fun t => t.isConclusion) (fun t => t.content) 0 s.graph.nodes

theorem getConclusions_isEmpty (s : ThinkingSession) :
    s.getConclusions.isEmpty =
      (s.graph.nodes.filter (fun t => t.isConclusion)).isEmpty := by
  rw [← getConclusions_snd]
  cases s.getConclusions <;> simp

theorem addThought_success (s : ThinkingSession) (c : String) (tt : ThoughtType)
    (p : Nat) (pt : Thought) (et : ThoughtEdge) (limits : FastThinkLimits) (now : Nat)
    (h1 : now - s.startedAt ≤ limits.thinkingTimeout)
    (h2 : s.graph.nodes.length < limits.maxThoughts)
    (hp : s.graph.nodes.get? p = some pt)
    (h3 : pt.depth + 1 ≤ limits.maxDepth) :
    s.addThought c tt (some p) (some et) limits now =
      .ok s.graph.nodes.length
        { s with
          graph := { nodes := s.graph.nodes ++ [Thought.new s.nextId c tt (pt.depth + 1) now]
                     edges := s.graph.edges ++ [⟨p, s.graph.nodes.length, et⟩] }
          rootThought := if s.rootThought.isNone then some s.graph.nodes.length
            else s.rootThought
          lastActivity := now
          currentDepth := max s.currentDepth (pt.depth + 1)
          nextId := s.nextId + 1 } := by
  have hplen : p < s.graph.nodes.length := get?_of_lt_length hp
  have hA : ¬(limits.thinkingTimeout < now - s.startedAt) := Nat.not_lt.mpr h1
  have hB : ¬(limits.maxThoughts ≤ s.graph.nodes.length) := Nat.not_le.mpr h2
  have hC : ¬(limits.maxDepth < pt.depth + 1) := Nat.not_lt.mpr h3
  have hD : p < s.graph.nodes.length + 1 := by omega
  have hE : s.graph.nodes.length < s.graph.nodes.length + 1 := by omega
  have hp' : s.graph.nodes[p]? = some pt := by
    rw [← List.get?_eq_getElem?]
    exact hp
  simp [ThinkingSession.addThought, ThinkingSession.computedDepth, hp', hA, hB, hC,
    ThoughtGraph.addEdge, hD, hE]

theorem addThought_ok_inv {s : ThinkingSession} {c : String} {tt : ThoughtType}
    {parent : Option Nat} {et : Option ThoughtEdge} {limits : FastThinkLimits}
    {now n : Nat} {s' : ThinkingSession}
    (h : s.addThought c tt parent et limits now = .ok n s') :
    n = s.graph.nodes.length ∧
    s'.graph.nodes =
      s.graph.nodes ++ [Thought.new s.nextId c tt (s.computedDepth parent) now] ∧
    s'.status = s.status ∧ s'.startedAt = s.startedAt ∧ s'.nextId = s.nextId + 1 ∧
    s'.entities = s.entities := by
  simp only [ThinkingSession.addThought] at h
  by_cases hA : limits.thinkingTimeout < now - s.startedAt
  · rw [if_pos hA] at h
    exact absurd h (by simp)
  rw [if_neg hA] at h
  by_cases hB : limits.maxThoughts ≤ s.graph.nodes.length
  · rw [if_pos hB] at h
    exact absurd h (by simp)
  rw [if_neg hB] at h
  by_cases hC : limits.maxDepth < s.computedDepth parent
  · rw [if_pos hC] at h
    exact absurd h (by simp)
  rw [if_neg hC] at h
  split at h
  · exact absurd h (by simp)
  · rename_i g2 heq
    injection h with hn hs
    subst hn
    subst hs
    have hnodes : g2.nodes =
        s.graph.nodes ++ [Thought.new s.nextId c tt (s.computedDepth parent) now] := by
      cases parent with
      | none =>
          injection heq with hg
          rw [← hg]
      | some pi =>
          simp only [ThoughtGraph.addEdge] at heq
          split at heq
          · injection heq with hg
            rw [← hg]
          · exact absurd heq (by simp)
    exact ⟨rfl, hnodes, rfl, rfl, rfl, rfl⟩

theorem addRecalledThought_success (s : ThinkingSession) (content mid : String)
    (q : Rat) (p : Nat) (pt : Thought) (limits : FastThinkLimits) (now : Nat)
    (h1 : now - s.startedAt ≤ limits.thinkingTimeout)
    (h2 : s.graph.nodes.length < limits.maxThoughts)
    (hp : s.graph.nodes.get? p = some pt)
    (h3 : pt.depth + 1 ≤ limits.maxDepth) :
    s.addRecalledThought content mid q p limits now =
      .ok s.graph.nodes.length
        { s with
          graph := { nodes := s.graph.nodes ++
                       [mkRecallThought s.nextId ⟨mid, content, q⟩ (pt.depth + 1) now]
                     edges := s.graph.edges ++ [⟨p, s.graph.nodes.length, .Recalled⟩] }
          rootThought := if s.rootThought.isNone then some s.graph.nodes.length
            else s.rootThought
          lastActivity := now
          currentDepth := max s.currentDepth (pt.depth + 1)
          nextId := s.nextId + 1 } := by
  rw [ThinkingSession.addRecalledThought,
    addThought_success s content .Recall p pt .Recalled limits now h1 h2 hp h3]
  dsimp only
  rw [updateAt_append_length]
  rfl

theorem recallLoop_spec (limits : FastThinkLimits) (p : Nat) (pt : Thought) (now : Nat) :
    ∀ (memories : List MemoryRecord) (s : ThinkingSession) (acc : List Nat),
      now - s.startedAt ≤ limits.thinkingTimeout →
      s.graph.nodes.get? p = some pt →
      pt.depth + 1 ≤ limits.maxDepth →
      ∃ s',
        recallLoop s memories p limits now acc =
          .ok (acc ++ List.range' s.graph.nodes.length
            (min memories.length (limits.maxThoughts - s.graph.nodes.length))) s' ∧
        s'.graph.nodes = s.graph.nodes ++
          recalledNodes s.nextId
            (memories.take (min memories.length (limits.maxThoughts - s.graph.nodes.length)))
            (pt.depth + 1) now ∧
        s'.status = s.status ∧ s'.startedAt = s.startedAt := by
  intro memories
  induction memories with
  | nil =>
      intro s acc h1 hp h3
      exact ⟨s, by simp [recallLoop], by simp [recalledNodes], rfl, rfl⟩
  | cons m ms ih =>
      intro s acc h1 hp h3
      have hplen : p < s.graph.nodes.length := get?_of_lt_length hp
      by_cases hfull : limits.maxThoughts ≤ s.graph.nodes.length
      · have hz : limits.maxThoughts - s.graph.nodes.length = 0 :=
          Nat.sub_eq_zero_of_le hfull
        refine ⟨s, ?_, ?_, rfl, rfl⟩
        · simp [recallLoop, hfull, hz]
        · simp [hz, recalledNodes]
      · have hlt : s.graph.nodes.length < limits.maxThoughts := Nat.lt_of_not_le hfull
        obtain ⟨s', heq, hnodes, hstat, hstart⟩ :=
          ih { s with
                graph := { nodes := s.graph.nodes ++
                             [mkRecallThought s.nextId ⟨m.id, m.content, m.score⟩
                               (pt.depth + 1) now]
                           edges := s.graph.edges ++
                             [⟨p, s.graph.nodes.length, .Recalled⟩] }
                rootThought := if s.rootThought.isNone then some s.graph.nodes.length
                  else s.rootThought
                lastActivity := now
                currentDepth := max s.currentDepth (pt.depth + 1)
                nextId := s.nextId + 1 }
            (acc ++ [s.graph.nodes.length]) (by simpa using h1)
            (by
              dsimp only
              rw [List.get?_append hplen]
              exact hp)
            h3
        dsimp only at heq hnodes hstat hstart
        simp only [List.length_append, List.length_cons, List.length_nil] at heq hnodes
        have hK : min (ms.length + 1) (limits.maxThoughts - s.graph.nodes.length) =
            min ms.length (limits.maxThoughts - (s.graph.nodes.length + 1)) + 1 := by
          omega
        refine ⟨s', ?_, ?_, hstat, hstart⟩
        · simp only [recallLoop]
          rw [if_neg hfull,
            addRecalledThought_success s m.content m.id m.score p pt limits now h1 hlt hp h3]
          dsimp only
          rw [heq]
          simp only [List.length_cons, hK, List.range'_succ]
          simp [List.append_assoc]
        · rw [hnodes]
          simp only [List.length_cons, hK, List.take_succ_cons]
          simp [recalledNodes, List.append_assoc]

theorem insertSession_lookup (m : FastThinkManager) (sid : String) (s : ThinkingSession) :
    (m.insertSession sid s).sessions sid = some s := by
  simp [FastThinkManager.insertSession]

theorem removeSession_lookup (m : FastThinkManager) (sid : String) :
    (m.removeSession sid).sessions sid = none := by
  simp [FastThinkManager.removeSession]

theorem commitPrepare_snd_lookup (m : FastThinkManager) (sid : String) :
    (m.commitPrepare sid).2.sessions sid = none := by
  unfold FastThinkManager.commitPrepare
  cases hs : m.sessions sid with
  | none => simpa using hs
  | some session =>
      by_cases hc : session.getConclusions.isEmpty <;> simp [hc, removeSession_lookup]

theorem commit_snd_lookup (m : FastThinkManager) (sid uid : String)
    (store : String → String → Except String StoreAddResult) (now : Nat) :
    (m.commit sid uid store now).2.sessions sid = none := by
  have h := commitPrepare_snd_lookup m sid
  unfold FastThinkManager.commit
  cases hcp : m.commitPrepare sid with
  | mk r m' =>
      rw [hcp] at h
      cases r with
      | error e => simpa using h
      | ok pr =>
          obtain ⟨fullContent, session⟩ := pr
          cases hst : store fullContent uid with
          | error e => simpa [hst] using h
          | ok res => simpa [hst] using h

theorem discard_snd_lookup (m : FastThinkManager) (sid : String) (now : Nat) :
    (m.discard sid now).2.sessions sid = none := by
  unfold FastThinkManager.discard
  cases hs : m.sessions sid with
  | none => simpa using hs
  | some session => simp [removeSession_lookup]

theorem chainAux_head? (s : ThinkingSession) :
    ∀ (fuel : Nat) (chain : List Nat) (current : Nat), chain ≠ [] →
      (chainAux s fuel chain current).head? = chain.head? := by
  intro fuel
  induction fuel with
  | zero => intro chain current _; rfl
  | succ fuel ih =>
      intro chain current h
      simp only [chainAux]
      cases hp : (s.getParents current).head? with
      | none => rfl
      | some pr =>
          obtain ⟨parent, w⟩ := pr
          dsimp only
          cases hc : chain.contains parent with
          | true => simp
          | false =>
              rw [if_neg (by simp)]
              rw [ih (chain ++ [parent]) parent (by simp)]
              cases chain with
              | nil => exact absurd rfl h
              | cons a t => simp

theorem buildConclusionContent_eq (s : ThinkingSession)
    (hc : s.getConclusions.isEmpty = false) :
    s.buildConclusionContent = String.intercalate "\n"
      ((s.graph.nodes.filter (fun t => t.isConclusion)).map (fun t => t.content)) := by
  unfold ThinkingSession.buildConclusionContent
  simp only [hc, Bool.false_eq_true, if_false]
  rw [getConclusions_content]

theorem getSupportingEvidence_isEmpty (s : ThinkingSession) :
    s.getSupportingEvidence.isEmpty =
      (s.graph.nodes.filter (fun t => t.isRecall)).isEmpty := by
  unfold ThinkingSession.getSupportingEvidence
  cases s.graph.nodes.filter (fun t => t.isRecall) <;> simp

theorem commitPrepare_content (m : FastThinkManager) (sid : String) (s : ThinkingSession)
    (hs : m.sessions sid = some s) (hc : s.getConclusions.isEmpty = false) :
    m.commitPrepare sid = (.ok (specCommitContent s, s), m.removeSession sid) := by
  unfold FastThinkManager.commitPrepare specCommitContent
  rw [hs]
  dsimp only
  simp only [hc, Bool.false_eq_true, if_false]
  rw [getSupportingEvidence_isEmpty, buildConclusionContent_eq s hc]
  rfl

/-- Claim C4 (confirmed): `add_thought`'s failure checks run in source order
and each failure leaves the graph unchanged.  (1) Past the timeout the call
fails `Timeout` and only the status changes (to `TimedOut`); (2) otherwise at
the thought budget it fails `TooManyThoughts` and sets `Overflow`; (3)
otherwise a computed depth (`parent.depth + 1`, or 0 without parent) beyond
`max_depth` fails `TooDeep` with the session fully unchanged.  When a session
is past its timeout and at the thought limit at once, `Timeout` wins: conjunct
(1) carries no budget assumption. -/
theorem add_thought_failure_order (s : ThinkingSession) (c : String) (tt : ThoughtType)
    (parent : Option Nat) (et : Option ThoughtEdge) (limits : FastThinkLimits)
    (now : Nat) :
    (limits.thinkingTimeout < now - s.startedAt →
      s.addThought c tt parent et limits now =
        .err .Timeout { s with status := SessionStatus.TimedOut }) ∧
    (now - s.startedAt ≤ limits.thinkingTimeout →
      limits.maxThoughts ≤ s.graph.nodes.length →
      s.addThought c tt parent et limits now =
        .err .TooManyThoughts { s with status := SessionStatus.Overflow }) ∧
    (now - s.startedAt ≤ limits.thinkingTimeout →
      s.graph.nodes.length < limits.maxThoughts →
      limits.maxDepth < s.computedDepth parent →
      s.addThought c tt parent et limits now = .err .TooDeep s) := by
  refine ⟨?_, ?_, ?_⟩
  · intro hA
    simp only [ThinkingSession.addThought]
    rw [if_pos hA]
  · intro hA hB
    simp only [ThinkingSession.addThought]
    rw [if_neg (Nat.not_lt.mpr hA), if_pos hB]
  · intro hA hB hC
    simp only [ThinkingSession.addThought]
    rw [if_neg (Nat.not_lt.mpr hA), if_neg (Nat.not_le.mpr hB), if_pos hC]

/-- Witness for C4: the three failures observed on the concrete started
session — past the timeout, at a one-thought budget, and at a zero depth
limit. -/
theorem add_thought_failure_order_witness :
    sessStarted.addThought "x" .Reasoning (some 0) none FastThinkLimits.default 30001 =
      .err .Timeout { sessStarted with status := SessionStatus.TimedOut } ∧
    sessStarted.addThought "x" .Reasoning (some 0) none limitsOneThought 3 =
      .err .TooManyThoughts { sessStarted with status := SessionStatus.Overflow } ∧
    sessStarted.addThought "x" .Reasoning (some 0) none limitsShallow 3 =
      .err .TooDeep sessStarted :=
  ⟨(add_thought_failure_order sessStarted "x" .Reasoning (some 0) none
      FastThinkLimits.default 30001).1 (by decide),
   (add_thought_failure_order sessStarted "x" .Reasoning (some 0) none
      limitsOneThought 3).2.1 (by decide) (by decide),
   (add_thought_failure_order sessStarted "x" .Reasoning (some 0) none
      limitsShallow 3).2.2 (by decide) (by decide) (by decide)⟩

/-- Claim C10 (confirmed): `add_thought` called with a parent node index that
identifies no thought in the graph does not fail `ThoughtNotFound` — the
computed depth silently falls back to 0 — and the unguarded petgraph edge
insertion from the dangling parent index is reached, so the call panics
rather than returning an error. -/
theorem add_thought_invalid_parent_panics :
    sessStarted.computedDepth (some 5) = 0 ∧
    sessStarted.addThought "x" ThoughtType.Reasoning (some 5) none
      FastThinkLimits.default 1 = Outcome.panicked := by
  decide

/-- Counterexample to C9 as stated: in a session graph reachable by public
operations (`start_thinking` and then an `add_thought` with no parent), the
chain of the parentless thought 1 is `[1]`, which ends at 1 but does not begin
with the root thought 0. -/
theorem chain_to_root_counterexample :
    sessTwo.rootThought = some 0 ∧
    sessTwo.getChainToRoot 1 = [1] ∧
    (sessTwo.getChainToRoot 1).head? ≠ some 0 := by
  decide

/-- Claim C9 (amended): `get_chain_to_root(x)` always ends with `x`, and on a
node with no incoming edge — in particular the root while nothing links back
into it — it returns exactly `[x]`.  The claim's "always begins with the
root" part fails for thoughts added without a parent, and `[root]` is not
guaranteed once `link_thoughts` aims an edge at the root (see the
counterexample). -/
theorem chain_to_root_ends_at_start (s : ThinkingSession) (idx : Nat) :
    (s.getChainToRoot idx).getLast? = some idx ∧
    (s.getParents idx = [] → s.getChainToRoot idx = [idx]) := by
  constructor
  · unfold ThinkingSession.getChainToRoot
    rw [List.getLast?_reverse, chainAux_head? s _ [idx] idx (by simp)]
    rfl
  · intro h
    unfold ThinkingSession.getChainToRoot
    simp [chainAux, h]

/-- Witness for C9 (amended) at the concrete two-node session: the root has no
incoming edge and its chain is exactly `[0]`. -/
theorem chain_to_root_ends_at_start_witness :
    sessTwo.getParents 0 = [] ∧ sessTwo.getChainToRoot 0 = [0] :=
  ⟨by decide, (chain_to_root_ends_at_start sessTwo 0).2 (by decide)⟩

/-- Counterexample to C2 as stated: the manager's generic `add_thought` called
with `thought_type = Recall` succeeds and inserts a Recall thought whose
source-memory-id is null. -/
theorem recall_null_source_counterexample :
    (mgrStarted.addThought "s" "bare recall" .Recall (some 0) none 5).value? = some 1 ∧
    (((mgrStarted.addThought "s" "bare recall" .Recall (some 0) none 5).sessionAfter
          "s").bind (fun s => s.graph.nodes.get? 1)).map
        (fun t => (t.thoughtType, t.sourceMemoryId)) =
      some (ThoughtType.Recall, none) := by
  decide

theorem addRecalledThought_ok_node (s : ThinkingSession) (content mid : String)
    (q : Rat) (p : Nat) (limits : FastThinkLimits) (now n : Nat) (s' : ThinkingSession)
    (h : s.addRecalledThought content mid q p limits now = .ok n s') :
    s'.graph.nodes.get? n = some
      { id := s.nextId
        content := content
        thoughtType := .Recall
        certainty := q
        timestamp := now
        depth := s.computedDepth (some p)
        sourceMemoryId := some mid } := by
  unfold ThinkingSession.addRecalledThought at h
  cases heq : s.addThought content .Recall (some p) (some .Recalled) limits now with
  | ok node s1 =>
      rw [heq] at h
      dsimp only at h
      injection h with hn hs'
      obtain ⟨hnode, hnodes, _, _, _, _⟩ := addThought_ok_inv heq
      subst hn
      subst hs'
      subst hnode
      dsimp only
      rw [hnodes, updateAt_append_length, List.get?_concat_length]
      rfl
  | err e s1 =>
      rw [heq] at h
      exact absurd h (by simp)
  | panicked =>
      rw [heq] at h
      exact absurd h (by simp)

/-- Claim C2 (amended): Recall thoughts created through `add_recalled_thought`
(hence through the manager's `recall`) always carry the given non-null
source-memory-id — the inserted node is exactly the record below — but the
manager's generic `add_thought` with `thought_type = Recall` creates a Recall
thought with a null source-memory-id (see the counterexample), so the
invariant holds only on the recall path. -/
theorem add_recalled_thought_sets_source (s : ThinkingSession) (content mid : String)
    (q : Rat) (p : Nat) (limits : FastThinkLimits) (now n : Nat) (s' : ThinkingSession)
    (h : s.addRecalledThought content mid q p limits now = .ok n s') :
    s'.graph.nodes.get? n = some
      { id := s.nextId
        content := content
        thoughtType := .Recall
        certainty := q
        timestamp := now
        depth := s.computedDepth (some p)
        sourceMemoryId := some mid } :=
  addRecalledThought_ok_node s content mid q p limits now n s' h

/-- Witness for C2 (amended): a concrete recall insertion carries its source
memory id `m9`. -/
theorem add_recalled_thought_sets_source_witness :
    ((sessStarted.addRecalledThought "r" "m9" (mkRat 1 4) 0 FastThinkLimits.default
        2).session sessStarted).graph.nodes.get? 1 =
      some { id := 1
             content := "r"
             thoughtType := .Recall
             certainty := mkRat 1 4
             timestamp := 2
             depth := 1
             sourceMemoryId := some "m9" } :=
  add_recalled_thought_sets_source sessStarted "r" "m9" (mkRat 1 4) 0
    FastThinkLimits.default 2 1
    ((sessStarted.addRecalledThought "r" "m9" (mkRat 1 4) 0 FastThinkLimits.default
      2).session sessStarted) (by decide)

/-- Counterexample to C3 as stated: `add_recalled_thought` assigns the
store-returned score unclamped (`Thought::with_certainty`, which clamps, is
never called on this path), so a recall with score 3/2 yields a session
thought whose certainty is 3/2, outside [0, 1]. -/
theorem certainty_out_of_range_counterexample :
    ((sessStarted.addRecalledThought "mem" "m7" (mkRat 3 2) 0
        FastThinkLimits.default 5).session sessStarted).graph.nodes.get? 1 =
      some { id := 1
             content := "mem"
             thoughtType := .Recall
             certainty := mkRat 3 2
             timestamp := 5
             depth := 1
             sourceMemoryId := some "m7" } ∧
    ¬(mkRat 3 2 ≤ 1) := by
  decide

/-- Claim C3 (amended): a thought created by `add_thought` has the default
certainty 0.5, and `Thought::with_certainty` clamps its argument into
[0, 1]; but `add_recalled_thought` (hence `recall`) assigns the store score
unclamped, so a recall thought's certainty equals the raw score, which can
lie outside [0, 1] (see the counterexample). -/
theorem certainty_default_and_clamp (s : ThinkingSession) (c : String)
    (tt : ThoughtType) (parent : Option Nat) (et : Option ThoughtEdge)
    (limits : FastThinkLimits) (now n : Nat) (s' : ThinkingSession) (t0 : Thought)
    (q : Rat) :
    (s.addThought c tt parent et limits now = .ok n s' →
      (s'.graph.nodes.get? n).map (fun t => t.certainty) = some (mkRat 1 2)) ∧
    (0 ≤ (t0.withCertainty q).certainty ∧ (t0.withCertainty q).certainty ≤ 1) ∧
    (∀ (mid : String) (p : Nat),
      s.addRecalledThought c mid q p limits now = .ok n s' →
      (s'.graph.nodes.get? n).map (fun t => t.certainty) = some q) := by
  refine ⟨?_, ?_, ?_⟩
  · intro h
    obtain ⟨hnode, hnodes, _, _, _, _⟩ := addThought_ok_inv h
    subst hnode
    rw [hnodes, List.get?_concat_length]
    rfl
  · unfold Thought.withCertainty
    dsimp only
    split_ifs with h1 h2
    · exact ⟨le_refl 0, by norm_num⟩
    · exact ⟨by norm_num, le_refl 1⟩
    · exact ⟨le_of_not_lt h1, le_of_not_lt h2⟩
  · intro mid p h
    rw [addRecalledThought_ok_node s c mid q p limits now n s' h]
    rfl

/-- Witness for C3 (amended): on concrete inputs, a plain thought gets
certainty 0.5, clamping keeps 3/2 inside [0, 1], and the recall path stores
the raw 3/2. -/
theorem certainty_default_and_clamp_witness :
    (((sessStarted.addThought "w" .Reasoning (some 0) none FastThinkLimits.default
          2).session sessStarted).graph.nodes.get? 1).map (fun t => t.certainty) =
      some (mkRat 1 2) ∧
    (0 ≤ ((Thought.new 0 "t" .Initial 0 0).withCertainty (mkRat 3 2)).certainty ∧
      ((Thought.new 0 "t" .Initial 0 0).withCertainty (mkRat 3 2)).certainty ≤ 1) ∧
    (((sessStarted.addRecalledThought "w" "m9" (mkRat 3 2) 0 FastThinkLimits.default
          2).session sessStarted).graph.nodes.get? 1).map (fun t => t.certainty) =
      some (mkRat 3 2) :=
  ⟨(certainty_default_and_clamp sessStarted "w" .Reasoning (some 0) none
      FastThinkLimits.default 2 1
      ((sessStarted.addThought "w" .Reasoning (some 0) none FastThinkLimits.default
        2).session sessStarted) (Thought.new 0 "t" .Initial 0 0) (mkRat 3 2)).1
      (by decide),
   (certainty_default_and_clamp sessStarted "w" .Reasoning (some 0) none
      FastThinkLimits.default 2 1
      ((sessStarted.addThought "w" .Reasoning (some 0) none FastThinkLimits.default
        2).session sessStarted) (Thought.new 0 "t" .Initial 0 0) (mkRat 3 2)).2.1,
   (certainty_default_and_clamp sessStarted "w" .Reasoning (some 0) none
      FastThinkLimits.default 2 1
      ((sessStarted.addRecalledThought "w" "m9" (mkRat 3 2) 0 FastThinkLimits.default
        2).session sessStarted) (Thought.new 0 "t" .Initial 0 0) (mkRat 3 2)).2.2 "m9" 0
      (by decide)⟩

/-- Counterexample to C1 as stated: after an `add_thought` past the timeout,
session `"s"` is `TimedOut` (a terminal state) and still held by the manager,
yet `extract_entity` and `link_thoughts` on it succeed — they check neither
status nor timeout. -/
theorem terminal_mutation_succeeds_counterexample :
    (mgrTimedOut.sessions "s").map (fun s => s.status) =
      some SessionStatus.TimedOut ∧
    (mgrTimedOut.extractEntity "s" 0 "Rust" .Technology).isOk = true ∧
    (mgrTimedOut.linkThoughts "s" 0 0 .Supports).isOk = true := by
  decide

/-- Claim C1 (amended): once a session has failed into `TimedOut` the
thought-adding mutations (`add_thought`, `add_recalled_thought`,
`add_conclusion`) keep failing `Timeout` at every clock value from the
failure on, and in `Overflow` (budget reached) they keep failing; `commit`
and `discard` remove the session from the manager's map, after which manager
mutations fail `SessionNotFound`.  Contrary to the claim as stated, however,
`link_thoughts`, `extract_entity` and `map_to_concept` perform no status or
timeout check and can still succeed on a `TimedOut`/`Overflow` session (see
the counterexample). -/
theorem terminal_add_mutations_fail (s : ThinkingSession) (limits : FastThinkLimits)
    (c mid : String) (tt : ThoughtType) (parent : Option Nat)
    (et : Option ThoughtEdge) (q : Rat) (p : Nat) (sup : List Nat)
    (now0 now now2 : Nat) :
    (limits.thinkingTimeout < now0 - s.startedAt → now0 ≤ now →
      ({ s with status := SessionStatus.TimedOut }.addThought c tt parent et limits
          now =
        .err .Timeout { s with status := SessionStatus.TimedOut }) ∧
      ({ s with status := SessionStatus.TimedOut }.addRecalledThought c mid q p
          limits now =
        .err .Timeout { s with status := SessionStatus.TimedOut }) ∧
      ({ s with status := SessionStatus.TimedOut }.addConclusion c sup limits now =
        .err .Timeout { s with status := SessionStatus.TimedOut })) ∧
    (limits.maxThoughts ≤ s.graph.nodes.length →
      ({ s with status := SessionStatus.Overflow }.addThought c tt parent et limits
        now).isErr = true ∧
      ({ s with status := SessionStatus.Overflow }.addRecalledThought c mid q p
        limits now).isErr = true ∧
      ({ s with status := SessionStatus.Overflow }.addConclusion c sup limits
        now).isErr = true) ∧
    (∀ (m : FastThinkManager) (sid uid : String)
        (store : String → String → Except String StoreAddResult),
      ((m.commit sid uid store now).2.addThought sid c tt parent et now2).error? =
        some .SessionNotFound ∧
      ((m.discard sid now).2.addThought sid c tt parent et now2).error? =
        some .SessionNotFound) := by
  refine ⟨?_, ?_, ?_⟩
  · intro h0 hmono
    have hlt : limits.thinkingTimeout < now - s.startedAt :=
      lt_of_lt_of_le h0 (Nat.sub_le_sub_right hmono s.startedAt)
    have hadd : { s with status := SessionStatus.TimedOut }.addThought c tt parent et
        limits now = .err .Timeout { s with status := SessionStatus.TimedOut } := by
      simp only [ThinkingSession.addThought]
      rw [if_pos (by simpa using hlt)]
    refine ⟨hadd, ?_, ?_⟩
    · unfold ThinkingSession.addRecalledThought
      have : { s with status := SessionStatus.TimedOut }.addThought c .Recall
          (some p) (some .Recalled) limits now =
          .err .Timeout { s with status := SessionStatus.TimedOut } := by
        simp only [ThinkingSession.addThought]
        rw [if_pos (by simpa using hlt)]
      rw [this]
    · unfold ThinkingSession.addConclusion
      have : { s with status := SessionStatus.TimedOut }.addThought c .Conclusion
          sup.head? (some .LeadsTo) limits now =
          .err .Timeout { s with status := SessionStatus.TimedOut } := by
        simp only [ThinkingSession.addThought]
        rw [if_pos (by simpa using hlt)]
      dsimp only
      rw [this]
  · intro hB
    have hadd : ∀ (c' : String) (tt' : ThoughtType) (parent' : Option Nat)
        (et' : Option ThoughtEdge),
        ({ s with status := SessionStatus.Overflow }.addThought c' tt' parent' et'
          limits now).isErr = true := by
      intro c' tt' parent' et'
      simp only [ThinkingSession.addThought]
      by_cases hA : limits.thinkingTimeout < now - s.startedAt
      · rw [if_pos (by simpa using hA)]
        rfl
      · rw [if_neg (by simpa using hA), if_pos (by simpa using hB)]
        rfl
    refine ⟨hadd c tt parent et, ?_, ?_⟩
    · unfold ThinkingSession.addRecalledThought
      have h' := hadd c .Recall (some p) (some .Recalled)
      dsimp only
      cases heq : { s with status := SessionStatus.Overflow }.addThought c .Recall
          (some p) (some .Recalled) limits now with
      | ok node s1 => rw [heq] at h'; exact absurd h' (by simp [Outcome.isErr])
      | err e s1 => rfl
      | panicked => rw [heq] at h'; exact absurd h' (by simp [Outcome.isErr])
    · unfold ThinkingSession.addConclusion
      have h' := hadd c .Conclusion sup.head? (some .LeadsTo)
      dsimp only
      cases heq : { s with status := SessionStatus.Overflow }.addThought c .Conclusion
          sup.head? (some .LeadsTo) limits now with
      | ok node s1 => rw [heq] at h'; exact absurd h' (by simp [Outcome.isErr])
      | err e s1 => rfl
      | panicked => rw [heq] at h'; exact absurd h' (by simp [Outcome.isErr])
  · intro m sid uid store
    constructor
    · have h := commit_snd_lookup m sid uid store now
      unfold FastThinkManager.addThought
      rw [h]
      rfl
    · have h := discard_snd_lookup m sid now
      unfold FastThinkManager.addThought
      rw [h]
      rfl

/-- Witness for C1 (amended): a concrete sticky Timeout failure at a later
clock, a sticky Overflow failure, and `SessionNotFound` after a discard. -/
theorem terminal_add_mutations_fail_witness :
    ({ sessStarted with status := SessionStatus.TimedOut }.addThought "x" .Reasoning
        (some 0) none FastThinkLimits.default 30002 =
      .err .Timeout { sessStarted with status := SessionStatus.TimedOut }) ∧
    ({ sessStarted with status := SessionStatus.Overflow }.addThought "x" .Reasoning
        (some 0) none limitsOneThought 3).isErr = true ∧
    ((mgrStarted.discard "s" 4).2.addThought "s" "x" .Reasoning (some 0) none
      5).error? = some .SessionNotFound :=
  ⟨((terminal_add_mutations_fail sessStarted FastThinkLimits.default "x" "m"
      .Reasoning (some 0) none 0 0 [] 30001 30002 5).1 (by decide) (by decide)).1,
   ((terminal_add_mutations_fail sessStarted limitsOneThought "x" "m" .Reasoning
      (some 0) none 0 0 [] 0 3 5).2.1 (by decide)).1,
   ((terminal_add_mutations_fail sessStarted FastThinkLimits.default "x" "m"
      .Reasoning (some 0) none 0 0 [] 0 4 5).2.2 mgrStarted "s" "u" storeOk).2⟩

/-- Claim C7 (confirmed): `commit` on an absent id fails `SessionNotFound`
and leaves the manager unchanged; on a present session the removal happens
before the conclusion check, so with no Conclusion thoughts it fails
`NoConclusion` with the session already removed; and after any `commit` no
session remains under the id — a subsequent `get_session_status` returns
`SessionNotFound` (this also covers the successful-commit case). -/
theorem commit_removes_session (m : FastThinkManager) (sid uid : String)
    (store : String → String → Except String StoreAddResult) (now now2 : Nat) :
    (m.sessions sid = none →
      m.commit sid uid store now = (.error .SessionNotFound, m)) ∧
    (∀ s, m.sessions sid = some s → s.getConclusions.isEmpty = true →
      m.commit sid uid store now = (.error .NoConclusion, m.removeSession sid)) ∧
    ((m.commit sid uid store now).2.getSessionStatus sid now2 =
      .error .SessionNotFound) := by
  refine ⟨?_, ?_, ?_⟩
  · intro h
    unfold FastThinkManager.commit FastThinkManager.commitPrepare
    rw [h]
  · intro s hs hc
    unfold FastThinkManager.commit FastThinkManager.commitPrepare
    rw [hs]
    dsimp only
    rw [if_pos hc]
  · have h := commit_snd_lookup m sid uid store now
    unfold FastThinkManager.getSessionStatus
    rw [h]

/-- Witness for C7 on the concrete one-session manager: commit of an absent
id, commit of the conclusion-less session `"s"` (removed), and the
`SessionNotFound` status lookup afterwards. -/
theorem commit_removes_session_witness :
    mgrStarted.commit "nope" "u" storeOk 3 = (.error .SessionNotFound, mgrStarted) ∧
    mgrStarted.commit "s" "u" storeOk 3 =
      (.error .NoConclusion, mgrStarted.removeSession "s") ∧
    (mgrStarted.commit "s" "u" storeOk 3).2.getSessionStatus "s" 4 =
      .error .SessionNotFound :=
  ⟨(commit_removes_session mgrStarted "nope" "u" storeOk 3 4).1 (by decide),
   (commit_removes_session mgrStarted "s" "u" storeOk 3 4).2.1 sessStarted
     (by decide) (by decide),
   (commit_removes_session mgrStarted "s" "u" storeOk 3 4).2.2⟩

/-- Claim C6 (confirmed): for a commit on a session holding at least one
Conclusion thought, the content handed to the store (`full_content` of
`commitPrepare`) equals the specification formula `specCommitContent`: the
Conclusion thoughts' contents joined by newline and — exactly when the
session holds at least one Recall thought — the
`"\n\n[Based on: ...; ...]"` suffix built from every Recall thought; with no
Recall thoughts, exactly the joined conclusions. -/
theorem commit_content_matches_spec (m : FastThinkManager) (sid : String)
    (s : ThinkingSession) (hs : m.sessions sid = some s)
    (hc : s.getConclusions.isEmpty = false) :
    m.commitPrepare sid = (.ok (specCommitContent s, s), m.removeSession sid) :=
  commitPrepare_content m sid s hs hc

/-- Witness for C6 on the concrete S2 session (one conclusion, two recalls):
the committed content is the literal string from the specification. -/
theorem commit_content_matches_spec_witness :
    mgrS2.commitPrepare "s2" =
      (.ok (specCommitContent sessS2, sessS2), mgrS2.removeSession "s2") ∧
    specCommitContent sessS2 =
      "Use LRU\n\n[Based on: [m7] LRU works for bursty; [m8] LFU for skew]" :=
  ⟨commit_content_matches_spec mgrS2 "s2" sessS2 (by decide) (by decide),
   by decide⟩

/-- Claim C8 (confirmed): entity interning is case-insensitive and idempotent.
From an empty table, interning a name and then any name equal up to
lowercasing on the same existing thought returns the same id both times and
leaves exactly one entry whose mentions hold that thought exactly once; the
table never grows beyond `max_entities`; and interning an already-present
name still succeeds when the table is full (the existing-entry branch runs
before the capacity check). -/
theorem entity_interning (s : ThinkingSession) (t : Nat) (th : Thought)
    (n1 n2 : String) (ty : ScratchEntityType) (limits : FastThinkLimits)
    (hth : s.graph.nodes.get? t = some th) :
    (s.entities = [] → strToLower n2 = strToLower n1 → 0 < limits.maxEntities →
      ∃ s1 s2,
        s.extractEntity t n1 ty limits = .ok s.nextId s1 ∧
        s1.extractEntity t n2 ty limits = .ok s.nextId s2 ∧
        s2.entities = [(strToLower n1,
          { id := s.nextId
            name := n1
            entityType := ty
            mentions := [t]
            attributes := [] })]) ∧
    (∀ name, s.entities.length ≤ limits.maxEntities →
      ((s.extractEntity t name ty limits).session s).entities.length ≤
        limits.maxEntities) ∧
    (∀ name e, listLookup s.entities (strToLower name) = some e →
      s.extractEntity t name ty limits = .ok e.id
        { s with
          entities := listUpdate s.entities (strToLower name) (fun x => x.addMention t)
          thoughtToEntities := pushIndex s.thoughtToEntities t (strToLower name) }) := by
  have hth' : ¬((s.graph.nodes.get? t).isNone = true) := by rw [hth]; simp
  refine ⟨?_, ?_, ?_⟩
  · intro h0 hl hmax
    have h1 : s.extractEntity t n1 ty limits = .ok s.nextId
        { s with
          entities := [(strToLower n1,
            { id := s.nextId
              name := n1
              entityType := ty
              mentions := [t]
              attributes := [] })]
          thoughtToEntities := pushIndex s.thoughtToEntities t (strToLower n1)
          nextId := s.nextId + 1 } := by
      unfold ThinkingSession.extractEntity
      rw [if_neg hth']
      rw [h0]
      simp [listLookup, Nat.not_le.mpr hmax, ScratchEntity.new, ScratchEntity.addMention]
    have h2 : ({ s with
          entities := [(strToLower n1,
            { id := s.nextId
              name := n1
              entityType := ty
              mentions := [t]
              attributes := [] })]
          thoughtToEntities := pushIndex s.thoughtToEntities t (strToLower n1)
          nextId := s.nextId + 1 } : ThinkingSession).extractEntity t n2 ty limits =
        .ok s.nextId
          { s with
            entities := [(strToLower n1,
              { id := s.nextId
                name := n1
                entityType := ty
                mentions := [t]
                attributes := [] })]
            thoughtToEntities := pushIndex
              (pushIndex s.thoughtToEntities t (strToLower n1)) t (strToLower n2)
            nextId := s.nextId + 1 } := by
      unfold ThinkingSession.extractEntity
      rw [if_neg (by simpa using hth')]
      rw [hl]
      simp [listLookup, listUpdate, ScratchEntity.addMention]
    exact ⟨_, _, h1, h2, by simp⟩
  · intro name hle
    unfold ThinkingSession.extractEntity
    rw [if_neg hth']
    dsimp only
    cases hlook : listLookup s.entities (strToLower name) with
    | some e => simpa [Outcome.session, listUpdate] using hle
    | none =>
        by_cases hfull : limits.maxEntities ≤ s.entities.length
        · simpa [hfull, Outcome.session] using hle
        · simp only [hfull, if_false]
          simp [Outcome.session]
          omega
  · intro name e hlook
    unfold ThinkingSession.extractEntity
    rw [if_neg hth']
    dsimp only
    rw [hlook]

/-- Witness for C8: interning `"Rust"` then `"RUST"` on thought 0 of the
concrete started session returns id 1 both times and leaves one entry keyed
`"rust"` mentioning thought 0 exactly once. -/
theorem entity_interning_witness :
    strToLower "RUST" = strToLower "Rust" ∧
    (∃ s1 s2,
      sessStarted.extractEntity 0 "Rust" .Technology FastThinkLimits.default =
        .ok 1 s1 ∧
      s1.extractEntity 0 "RUST" .Technology FastThinkLimits.default = .ok 1 s2 ∧
      s2.entities = [("rust",
        { id := 1
          name := "Rust"
          entityType := .Technology
          mentions := [0]
          attributes := [] })]) :=
  ⟨by decide,
   (entity_interning sessStarted 0 (Thought.new 0 "start" .Initial 0 0) "Rust"
      "RUST" .Technology FastThinkLimits.default (by decide)).1 (by decide)
      (by decide) (by decide)⟩

/-- Counterexample to C5 as stated: a recall whose store search succeeds (one
record, budget available) on a session already past its thinking timeout
fails with the insertion error instead of inserting the record, and the
session's status ends `TimedOut`, not `Thinking`. -/
theorem recall_past_timeout_counterexample :
    (mgrStarted.recall "s" "q" 0 (.ok [⟨"m7", "LRU", mkRat 9 10⟩]) 30001).isOk =
      false ∧
    (mgrStarted.recall "s" "q" 0 (.ok [⟨"m7", "LRU", mkRat 9 10⟩]) 30001).error? =
      some .Timeout ∧
    ((mgrStarted.recall "s" "q" 0 (.ok [⟨"m7", "LRU", mkRat 9 10⟩])
          30001).sessionAfter "s").map (fun s => (s.status, s.graph.nodes.length)) =
      some (SessionStatus.TimedOut, 1) := by
  decide

/-- Claim C5 (amended): for a recall whose store search succeeds, provided
the session is within its thinking timeout and the parent thought exists at
a depth below `max_depth`, the recall thoughts are inserted in exactly the
store-returned order with matching content, source id and certainty
(`recalledNodes` lists the inserted records verbatim), insertion stops
without error at the thought budget — exactly the budget-allowed prefix is
inserted — and the session's status is restored to `Thinking`.  Outside
those provisos the insertion loop can fail (see the counterexample), the
error `?`-propagates, and the status is not restored. -/
theorem recall_order_preserving (m : FastThinkManager) (sid query : String)
    (p : Nat) (records : List MemoryRecord) (now : Nat) (s : ThinkingSession)
    (pt : Thought) (hs : m.sessions sid = some s)
    (h1 : now - s.startedAt ≤ m.limits.thinkingTimeout)
    (hp : s.graph.nodes.get? p = some pt)
    (h3 : pt.depth + 1 ≤ m.limits.maxDepth) :
    ∃ sFinal,
      (m.recall sid query p (.ok records) now).value? =
        some (List.range' s.graph.nodes.length
          (min records.length (m.limits.maxThoughts - s.graph.nodes.length))) ∧
      (m.recall sid query p (.ok records) now).sessionAfter sid = some sFinal ∧
      sFinal.status = SessionStatus.Thinking ∧
      sFinal.graph.nodes = s.graph.nodes ++
        recalledNodes s.nextId
          (records.take
            (min records.length (m.limits.maxThoughts - s.graph.nodes.length)))
          (pt.depth + 1) now := by
  obtain ⟨s', heq, hnodes, hstat, hstart⟩ :=
    recallLoop_spec m.limits p pt now records { s with status := SessionStatus.NeedsRecall }
      [] (by simpa using h1) (by simpa using hp) h3
  dsimp only at heq hnodes hstat hstart
  refine ⟨{ s' with status := SessionStatus.Thinking }, ?_, ?_, rfl, by simpa using hnodes⟩
  · unfold FastThinkManager.recall
    rw [hs]
    dsimp only
    rw [insertSession_lookup]
    dsimp only
    rw [heq]
    rfl
  · unfold FastThinkManager.recall
    rw [hs]
    dsimp only
    rw [insertSession_lookup]
    dsimp only
    rw [heq]
    dsimp only [MOutcome.sessionAfter]
    rw [insertSession_lookup]

/-- Witness for C5 (amended): a concrete two-record recall on the started
session inserts nodes 1 and 2 in store order with matching contents, ids and
scores, and restores status `Thinking`. -/
theorem recall_order_preserving_witness :
    ∃ sFinal,
      (mgrStarted.recall "s" "q" 0
          (.ok [⟨"m7", "LRU works for bursty", mkRat 9 10⟩,
                ⟨"m8", "LFU for skew", mkRat 7 10⟩]) 5).value? = some [1, 2] ∧
      (mgrStarted.recall "s" "q" 0
          (.ok [⟨"m7", "LRU works for bursty", mkRat 9 10⟩,
                ⟨"m8", "LFU for skew", mkRat 7 10⟩]) 5).sessionAfter "s" =
        some sFinal ∧
      sFinal.status = SessionStatus.Thinking ∧
      sFinal.graph.nodes =
        [Thought.new 0 "start" .Initial 0 0,
         mkRecallThought 1 ⟨"m7", "LRU works for bursty", mkRat 9 10⟩ 1 5,
         mkRecallThought 2 ⟨"m8", "LFU for skew", mkRat 7 10⟩ 1 5] :=
  recall_order_preserving mgrStarted "s" "q" 0
    [⟨"m7", "LRU works for bursty", mkRat 9 10⟩,
     ⟨"m8", "LFU for skew", mkRat 7 10⟩]
    5 sessStarted (Thought.new 0 "start" .Initial 0 0) (by decide) (by decide)
    (by decide) (by decide)
